import Mathlib

/-!
Verification development for the Claim Grounding, Reuse, and Commit
Integrity Engine of the AI-Agent-EcoSystem repository (DTL pipeline).

The repository ships the engine's contracts, capability manifests and
architecture documents; the Python modules they reference
(`src/core/kill_switches.py`, `src/graph/workflow.py`, `commit_gate.py`,
`stores.py`) are not part of the source tree available here.  The
definitions below are therefore modelled from the specification and the
in-repo contracts, faithful to their words, and the properties are proved
against that model.

Time is measured in whole minutes (`Nat`); cryptographic hashes
(SHA-256 in the documents) are replaced by a deterministic stand-in
over the same data, which preserves every property stated here (no
claim depends on collision resistance).
-/

namespace DTL

/-- Modelled from the spec: evidence lifecycle states, ordered
`active → expired → revoked` (monotone, never regresses). -/
inductive Lifecycle
  | active
  | expired
  | revoked
deriving DecidableEq, Repr

/-- Numeric rank of a lifecycle state; forward transitions increase it. -/
def Lifecycle.rank : Lifecycle → Nat
  | .active => 0
  | .expired => 1
  | .revoked => 2

/-- Modelled from the spec: an Evidence Store item.  `scope = none` is the
global/unscoped sentinel (the documents use a `null` query hash for it). -/
structure EvidenceItem where
  id : String
  payload : String
  evidence_type : String
  scope : Option String
  lifecycle : Lifecycle
  created_at : Nat
deriving DecidableEq, Repr

/-- Modelled from the spec: the fixed evidence-type whitelist. -/
def evidenceTypeWhitelist : List String :=
  ["feed_item", "api_result", "document"]

/-- Modelled from the spec: a committed Report record, stored under the
deterministic key `report:` followed by the query fingerprint.  The
`rtype` field is the stored record's type tag (`"final_report"` for
committed reports), as used by the reuse contract's first precondition. -/
structure Report where
  rtype : String
  query_fingerprint : String
  body : String
  evidence_refs : List String
  completed_at : Nat
deriving DecidableEq, Repr

/-- Modelled from the spec: a run-ledger entry.  `detail` stands for the
event payload (the hashed content); `payload_hash` is the stand-in hash
of that payload. -/
structure RunLedgerEntry where
  sequence : Nat
  event_type : String
  actor : String
  detail : String
  payload_hash : Nat
  timestamp : Nat
deriving DecidableEq, Repr

/-- Modelled from the spec: the immutable kill-switch snapshot, captured
once at run start and never re-read mid-run. -/
structure KillSwitchSnapshot where
  GLOBAL_SHUTDOWN : Bool
  TRUE_REUSE_DISABLE : Bool
  EVIDENCE_REUSE_DISABLE : Bool
  GROUNDING_DISABLE : Bool
  LEARNING_DISABLE : Bool
  GENERATION_DISABLE : Bool
deriving DecidableEq, Repr

/-- Deterministic stand-in for the SHA-256 payload hash used by the
documents; any deterministic function preserves the properties proved
here. -/
def hashNat (s : String) : Nat :=
  s.data.foldl (fun a c => a * 31 + c.toNat) 7

/-- Modelled from the spec: the deterministic query fingerprint —
a stable hash of the normalized query text truncated to 16 characters
(SHA-256[:16] in the documents); stand-in: the first 16 characters of
the query text, which keeps the function total and deterministic. -/
def fingerprint (q : String) : String :=
  String.mk (q.data.take 16)

/-- The Report storage key for a fingerprint. -/
def reportKey (fp : String) : String :=
  "report:" ++ fp

/-- Modelled from the spec: the single named freshness constant.  The
source contracts disagree (15 minutes in the Groundhog Day reuse
contract, 30 minutes in the security architecture document); per the
spec's open question an implementer must pick one named constant — this
model picks the stricter 15-minute window of the ACTIVE reuse contract. -/
def FRESHNESS_WINDOW_MINUTES : Nat := 15

/-- The exact provenance trailer marker required in every committed
report body. -/
def provenanceMarker : String := "### Execution Provenance"

/-- Substring scan: does `pat` occur starting at the head of `l`? -/
def startsWithTok : List Char → List Char → Bool
  | [], _ => true
  | _ :: _, [] => false
  | p :: ps, c :: cs => p == c && startsWithTok ps cs

/-- Substring scan: does `pat` occur anywhere in `l`? -/
def containsTok (pat : List Char) : List Char → Bool
  | [] => startsWithTok pat []
  | c :: cs => startsWithTok pat (c :: cs) || containsTok pat cs

/-- Age of a record or item at snapshot time `now` (saturating at 0). -/
def ageAt (now created : Nat) : Nat := now - created

/-! ## Reuse Cache -/

/-- Modelled from the spec: a reuse decision.  Metadata-Only results
carry only the fingerprint and the prior completion timestamp — by
construction they contain no report body. -/
inductive ReuseDecision
  | trueReuse (body : String)
  | metadataOnly (fp : String) (prior_timestamp : Nat)
deriving DecidableEq, Repr

/-- Modelled from the spec: the five hard preconditions for True Reuse,
in evaluation order: (1) stored type tag is `final_report`; (2) stored
fingerprint equals the current one; (3) completion time within the
freshness window of the run-start snapshot time; (4) body contains the
exact provenance trailer marker; (5) the reuse-disabling kill switch is
not set. -/
def reusePreconds (fp : String) (now : Nat) (kill : KillSwitchSnapshot)
    (rec : Report) : List Bool :=
  [ rec.rtype == "final_report"
  , rec.query_fingerprint == fp
  , decide (ageAt now rec.completed_at ≤ FRESHNESS_WINDOW_MINUTES)
  , containsTok provenanceMarker.data rec.body.data
  , !kill.TRUE_REUSE_DISABLE ]

/-- Modelled from the spec: Reuse Cache lookup.  If all five hard
preconditions hold, the stored report body is returned verbatim (no
re-validation of individual citations); otherwise the decision falls
back to Metadata-Only. -/
def reuseLookup (fp : String) (now : Nat) (kill : KillSwitchSnapshot)
    (rec : Report) : ReuseDecision :=
  if (reusePreconds fp now kill rec).all id then
    .trueReuse rec.body
  else
    .metadataOnly fp rec.completed_at

/-! ## Grounding Validator -/

/-- Modelled from the spec: a draft paragraph — whether it carries a
factual assertion, and the evidence ids of its citations (the citation
extraction from the `[EVID:id]` syntax is performed upstream; the
validator's rule set operates on the extracted structure). -/
structure Paragraph where
  factual : Bool
  citations : List String
deriving DecidableEq, Repr

/-- Modelled from the spec: a draft report handed to the validator. -/
structure Draft where
  paragraphs : List Paragraph
deriving DecidableEq, Repr

/-- Modelled from the spec: the closed set of grounding violations. -/
inductive Violation
  | missingCitation (paraIdx : Nat)
  | citationCountExceeded (paraIdx : Nat)
  | unknownEvidence (eid : String)
  | inactiveEvidence (eid : String)
  | staleEvidence (eid : String)
  | scopeMismatch (eid : String)
  | selfReference (eid : String)
deriving DecidableEq, Repr

/-- A citation's scope check: the cited item's scope must equal the
draft's query fingerprint, or be the global sentinel. -/
def scopeOk (scope : Option String) (fp : String) : Bool :=
  match scope with
  | none => true
  | some s => s == fp

/-- Modelled from the spec: the per-citation rule checks — the cited id
must resolve to an item that is `active`, fresh (age at the run-start
snapshot within the freshness window, per the spec's stale-citation
grounding failure), properly scoped, and must not refer to the report
being produced. -/
def checkCitation (lookup : String → Option EvidenceItem) (fp : String)
    (now : Nat) (selfKey : String) (eid : String) : List Violation :=
  if eid == selfKey then [.selfReference eid]
  else
    match lookup eid with
    | none => [.unknownEvidence eid]
    | some it =>
      (if it.lifecycle == .active then [] else [.inactiveEvidence eid])
      ++ (if ageAt now it.created_at ≤ FRESHNESS_WINDOW_MINUTES then []
          else [.staleEvidence eid])
      ++ (if scopeOk it.scope fp then [] else [.scopeMismatch eid])

/-- Modelled from the spec: the per-paragraph rule checks — a factual
paragraph carries between 1 and 5 citations. -/
def checkParagraph (idx : Nat) (p : Paragraph) : List Violation :=
  (if p.factual && p.citations.isEmpty then [.missingCitation idx] else [])
  ++ (if p.citations.length ≤ 5 then [] else [.citationCountExceeded idx])

/-- All citations of a draft, in paragraph order. -/
def draftCitations (d : Draft) : List String :=
  (d.paragraphs.map Paragraph.citations).flatten

/-- Modelled from the spec: the Grounding Validator.  Returns the
pass/fail verdict together with the violation list; `ok = true` exactly
when no rule is violated. -/
def validate (d : Draft) (lookup : String → Option EvidenceItem)
    (fp : String) (now : Nat) (selfKey : String) :
    Bool × List Violation :=
  let paraViolations :=
    (d.paragraphs.enum.map fun pi => checkParagraph pi.1 pi.2).flatten
  let citViolations :=
    ((draftCitations d).map (checkCitation lookup fp now selfKey)).flatten
  let vs := paraViolations ++ citViolations
  (vs.isEmpty, vs)

/-! ## Evidence Store operations -/

/-- Modelled from the spec: the operations that may touch stored
evidence after the initial write.  `put` appends a new item (after the
whitelist, minimum-length and duplicate-suppression checks); `expire`
transitions `active → expired` once the item's age exceeds the TTL;
`revoke` transitions any state to `revoked`, explicit only. -/
inductive EvOp
  | put (item : EvidenceItem)
  | expire (id : String) (now : Nat)
  | revoke (id : String)
deriving DecidableEq, Repr

/-- Modelled from the spec: `put`'s admission checks — evidence type in
the whitelist, serialized payload length at least 50, and no identical
payload already stored for the same scope. -/
def putAccepts (store : List EvidenceItem) (item : EvidenceItem) : Bool :=
  evidenceTypeWhitelist.contains item.evidence_type
  && decide (50 ≤ item.payload.length)
  && !(store.any fun it => it.payload == item.payload && it.scope == item.scope)

/-- The per-item transform of `expire`: `active → expired`, only for the
addressed item and only once its age exceeds the TTL. -/
def expireF (id : String) (now : Nat) (it : EvidenceItem) : EvidenceItem :=
  if it.id == id && it.lifecycle == .active
      && decide (FRESHNESS_WINDOW_MINUTES < ageAt now it.created_at) then
    { it with lifecycle := .expired }
  else it

/-- The per-item transform of `revoke`: any state `→ revoked` for the
addressed item. -/
def revokeF (id : String) (it : EvidenceItem) : EvidenceItem :=
  if it.id == id then { it with lifecycle := .revoked } else it

/-- Apply one Evidence Store operation. -/
def applyEvOp (store : List EvidenceItem) : EvOp → List EvidenceItem
  | .put item => if putAccepts store item then store ++ [item] else store
  | .expire id now => store.map (expireF id now)
  | .revoke id => store.map (revokeF id)

/-- Apply a sequence of Evidence Store operations, oldest first. -/
def applyEvOps (store : List EvidenceItem) (ops : List EvOp) :
    List EvidenceItem :=
  ops.foldl applyEvOp store

/-- First stored item with the given id (ids are store-assigned and
unique; lookup observes the first match). -/
def findEvidence (store : List EvidenceItem) (id : String) :
    Option EvidenceItem :=
  store.find? fun it => it.id == id

/-! ## Ingestion sanitization -/

/-- The citation-token opener scrubbed from inbound external payloads. -/
def evidTok : List Char := ['[', 'E', 'V', 'I', 'D', ':']

/-- Modelled from the spec: scrubbing of embedded citation tokens in
inbound external content.  Each occurrence of the `[EVID:` opener is
neutralized by replacing its opening bracket, so no stored payload can
carry a citation token. -/
def scrub : List Char → List Char
  | [] => []
  | c :: cs =>
      if startsWithTok evidTok (c :: cs) then '(' :: scrub cs
      else c :: scrub cs

/-- Modelled from the spec: ingestion sanitization for inbound external
payloads — a payload containing the literal provenance trailer marker is
rejected outright (footer spoofing); otherwise embedded citation tokens
are scrubbed before storage. -/
def sanitizeIngest (payload : List Char) : Option (List Char) :=
  if containsTok provenanceMarker.data payload then none
  else some (scrub payload)

/-! ## Stores, events and the Commit Gate -/

/-- Modelled from the spec: the persistent stores — evidence items,
committed reports (keyed by query fingerprint), the append-only run
ledger, and the set of already-committed bundle hashes used by the
duplicate check. -/
structure StoreState where
  evidence : List EvidenceItem
  reports : List Report
  ledger : List RunLedgerEntry
  committedHashes : List Nat
deriving DecidableEq, Repr

/-- An observable store access or mutation, in the order the run
performs it. -/
inductive Event
  | ledgerAppend (e : RunLedgerEntry)
  | evidenceWrite (item : EvidenceItem)
  | reportWrite (r : Report)
  | evidenceRead (id : String)
  | reportRead (key : String)
deriving DecidableEq, Repr

/-- Modelled from the spec: the ordered Commit Gate check set. -/
inductive CheckName
  | schema
  | hash
  | authorization
  | grounding
  | killSwitch
  | duplicate
deriving DecidableEq, Repr

/-- Human-readable name of a check, used in `ABORT` ledger entries. -/
def CheckName.str : CheckName → String
  | .schema => "schema"
  | .hash => "hash"
  | .authorization => "authorization"
  | .grounding => "grounding"
  | .killSwitch => "kill_switch"
  | .duplicate => "duplicate"

/-- Modelled from the spec: a commit bundle — all metadata plus a
content hash covering the full bundle. -/
structure CommitBundle where
  run_id : String
  agent_id : String
  schema_version : String
  content_hash : Nat
  fingerprint : String
  report_body : String
  evidence_refs : List String
  evidence_items : List EvidenceItem
  timestamp : Nat
deriving DecidableEq, Repr

/-- The bundle content covered by the content hash. -/
def bundleCore (b : CommitBundle) : String :=
  b.run_id ++ "|" ++ b.agent_id ++ "|" ++ b.schema_version ++ "|"
    ++ b.fingerprint ++ "|" ++ b.report_body ++ "|"
    ++ String.intercalate "," (b.evidence_items.map EvidenceItem.payload)

/-- The content hash over the full bundle. -/
def bundleHash (b : CommitBundle) : Nat := hashNat (bundleCore b)

/-- Modelled from the spec: schema validity of a bundle. -/
def schemaOk (b : CommitBundle) : Bool :=
  !(b.run_id == "") && !(b.schema_version == "")

/-- Modelled from the spec: hash presence and correctness. -/
def hashOk (b : CommitBundle) : Bool :=
  b.content_hash == bundleHash b

/-- Modelled from the spec: writer-role authorization — only the
reporter node may commit. -/
def authOk (b : CommitBundle) : Bool :=
  b.agent_id == "reporter-v0.1"

/-- Modelled from the spec: the Kill-Switch Gate result consulted by
the Commit Gate. -/
def killOk (kill : KillSwitchSnapshot) : Bool :=
  !kill.GLOBAL_SHUTDOWN

/-- Modelled from the spec: fingerprint non-duplication — an identical,
already-committed bundle hash is rejected on resubmission. -/
def dupOk (st : StoreState) (b : CommitBundle) : Bool :=
  !(st.committedHashes.contains b.content_hash)

/-- Modelled from the spec: the Commit Gate's check set, evaluated in
its documented order; returns the first violated check, if any. -/
def firstFailedCheck (st : StoreState) (b : CommitBundle)
    (kill : KillSwitchSnapshot) (groundingOk : Bool) : Option CheckName :=
  if !schemaOk b then some .schema
  else if !hashOk b then some .hash
  else if !authOk b then some .authorization
  else if !groundingOk then some .grounding
  else if !killOk kill then some .killSwitch
  else if !dupOk st b then some .duplicate
  else none

/-- A generic run-ledger entry; the payload hash covers the detail. -/
def mkEntry (seq : Nat) (etype detail : String) (ts : Nat) :
    RunLedgerEntry :=
  ⟨seq, etype, "system", detail, hashNat detail, ts⟩

/-- The `EVIDENCE_WRITE` ledger entry for one evidence item; logged
before the item becomes queryable. -/
def mkEvEntry (seq : Nat) (it : EvidenceItem) (ts : Nat) :
    RunLedgerEntry :=
  ⟨seq, "EVIDENCE_WRITE", "commit_gate", it.id, hashNat it.payload, ts⟩

/-- The `EVIDENCE_WRITE` entries for a batch of evidence items, with
strictly increasing sequence numbers. -/
def evEntriesFrom (seq : Nat) (ts : Nat) :
    List EvidenceItem → List RunLedgerEntry
  | [] => []
  | it :: rest => mkEvEntry seq it ts :: evEntriesFrom (seq + 1) ts rest

/-- The Report record a successful commit stores. -/
def mkReport (b : CommitBundle) (now : Nat) : Report :=
  ⟨"final_report", b.fingerprint, b.report_body, b.evidence_refs, now⟩

/-- Modelled from the spec: overwrite semantics for the deterministic
report key — last-write-wins, no multi-version history. -/
def putReport (r : Report) (rs : List Report) : List Report :=
  r :: rs.filter fun x => !(x.query_fingerprint == r.query_fingerprint)

/-- First report stored under a fingerprint. -/
def findReport (rs : List Report) (fp : String) : Option Report :=
  rs.find? fun r => r.query_fingerprint == fp

/-- The outcome of a commit attempt: the stores after it, the ordered
trace of accesses it performed, and the violated check on rejection. -/
structure CommitResult where
  state : StoreState
  events : List Event
  rejected : Option CheckName
deriving DecidableEq, Repr

/-- Modelled from the spec: the Commit Gate protocol, strictly ordered —
create the ledger-logged prewrite token, run the ordered check set;
on all checks passing, log the `EVIDENCE_WRITE` entries and
`REPORT_FINALIZED`, then perform the actual Evidence Store and Report
writes; on any check failing, log `ABORT` with the violated check and
perform no writes. -/
def commitGate (st : StoreState) (b : CommitBundle)
    (kill : KillSwitchSnapshot) (groundingOk : Bool) (now : Nat) :
    CommitResult :=
  let base := st.ledger.length
  let pw := mkEntry base "PREWRITE" ("prewrite:" ++ b.run_id) now
  match firstFailedCheck st b kill groundingOk with
  | some c =>
      let ab := mkEntry (base + 1) "ABORT" c.str now
      ⟨{ st with ledger := st.ledger ++ [pw, ab] },
        [.ledgerAppend pw, .ledgerAppend ab], some c⟩
  | none =>
      let evEntries := evEntriesFrom (base + 1) now b.evidence_items
      let fin := mkEntry (base + 1 + b.evidence_items.length)
        "REPORT_FINALIZED" (reportKey b.fingerprint) now
      let rep := mkReport b now
      ⟨{ evidence := st.evidence ++ b.evidence_items
       , reports := putReport rep st.reports
       , ledger := st.ledger ++ [pw] ++ evEntries ++ [fin]
       , committedHashes := b.content_hash :: st.committedHashes }
      , [Event.ledgerAppend pw] ++ evEntries.map Event.ledgerAppend
          ++ [Event.ledgerAppend fin]
          ++ b.evidence_items.map Event.evidenceWrite
          ++ [Event.reportWrite rep]
      , none⟩

/-! ## Trace predicates -/

/-- Is the event a store mutation (a committed side effect)? -/
def isStoreWrite : Event → Bool
  | .evidenceWrite _ => true
  | .reportWrite _ => true
  | _ => false

/-- Does a ledger entry record the given side effect? -/
def entryMatches (e : RunLedgerEntry) : Event → Bool
  | .evidenceWrite it => e.event_type == "EVIDENCE_WRITE" && e.detail == it.id
  | .reportWrite r =>
      e.event_type == "REPORT_FINALIZED"
        && e.detail == reportKey r.query_fingerprint
  | _ => false

/-- Every store-write event in the trace is preceded by a ledger entry
recording it (`seen` accumulates the entries appended so far). -/
def writesLogged (seen : List RunLedgerEntry) : List Event → Bool
  | [] => true
  | .ledgerAppend e :: rest => writesLogged (seen ++ [e]) rest
  | .evidenceWrite it :: rest =>
      (seen.any fun e => entryMatches e (.evidenceWrite it))
        && writesLogged seen rest
  | .reportWrite r :: rest =>
      (seen.any fun e => entryMatches e (.reportWrite r))
        && writesLogged seen rest
  | .evidenceRead _ :: rest => writesLogged seen rest
  | .reportRead _ :: rest => writesLogged seen rest

/-- No store-write event occurs before a `REPORT_FINALIZED` ledger
append in the trace. -/
def finalizedBeforeWrites : List Event → Bool
  | [] => true
  | .ledgerAppend e :: rest =>
      e.event_type == "REPORT_FINALIZED" || finalizedBeforeWrites rest
  | .evidenceWrite _ :: _ => false
  | .reportWrite _ :: _ => false
  | .evidenceRead _ :: rest => finalizedBeforeWrites rest
  | .reportRead _ :: rest => finalizedBeforeWrites rest

/-- The new ledger extends the old one: entries are only appended,
never modified or deleted. -/
def ledgerExtends (old new : List RunLedgerEntry) : Prop :=
  ∃ tail, new = old ++ tail

/-! ## The run pipeline -/

/-- Modelled from the spec: the immutable inputs of one run — the store
snapshot taken at run start, the externally collected candidate
evidence, the externally generated draft (generation is outside this
subsystem; its output is handed in as already-materialized data), the
draft's prose body, and the run-start snapshot time against which all
freshness decisions are evaluated. -/
structure EvidenceSnapshot where
  store : StoreState
  candidates : List EvidenceItem
  draft : Draft
  draftBody : String
  now : Nat
deriving DecidableEq, Repr

/-- The observable outcome of one run: the report body (if any), the
classified failure code (if any), the ordered trace of store accesses,
and the stores after the run. -/
structure RunOutput where
  body : Option String
  failure : Option String
  events : List Event
  state : StoreState
deriving DecidableEq, Repr

/-- Modelled from the spec: the exact provenance trailer appended to
every committed report. -/
def renderBody (draftBody fp : String) (now : Nat) : String :=
  draftBody ++ "\n" ++ provenanceMarker
    ++ "\n- Mode: Normal\n- Query Fingerprint: " ++ fp
    ++ "\n- Timestamp: " ++ toString now

/-- The commit bundle the reporter assembles for a validated draft. -/
def mkBundle (q fp body : String) (items : List EvidenceItem)
    (refs : List String) (now : Nat) : CommitBundle :=
  let b0 : CommitBundle :=
    ⟨"RUN-" ++ q, "reporter-v0.1", "1.0.0", 0, fp, body, refs, items, now⟩
  { b0 with content_hash := bundleHash b0 }

/-- The halted output under `GLOBAL_SHUTDOWN`: no store access, no
ledger append, stores untouched. -/
def haltOutput (snap : EvidenceSnapshot) : RunOutput :=
  ⟨none, some "DTL-SEC-001", [], snap.store⟩

/-- The True Reuse output: the stored body is returned verbatim and the
reuse decision is logged to the ledger; no evidence writes occur. -/
def reuseOutput (q : String) (snap : EvidenceSnapshot) (b : String) :
    RunOutput :=
  let fp := fingerprint q
  let gh := mkEntry snap.store.ledger.length "GROUNDHOG_REUSE_DECISION"
    ("true_reuse:" ++ fp) snap.now
  ⟨some b, none, [.reportRead (reportKey fp), .ledgerAppend gh],
    { snap.store with ledger := snap.store.ledger ++ [gh] }⟩

/-- The fresh-generation path: validate the draft's grounding against
the evidence snapshot; on pass, assemble the bundle and submit it to
the Commit Gate; on grounding failure, hard-abort with a classified
failure code and no writes. -/
def freshOutput (q : String) (snap : EvidenceSnapshot)
    (kill : KillSwitchSnapshot) : RunOutput :=
  let fp := fingerprint q
  let readEvents := Event.reportRead (reportKey fp)
    :: (draftCitations snap.draft).map Event.evidenceRead
  let lookup := findEvidence (snap.store.evidence ++ snap.candidates)
  let v := validate snap.draft lookup fp snap.now (reportKey fp)
  if v.1 then
    let body := renderBody snap.draftBody fp snap.now
    let bundle := mkBundle q fp body snap.candidates
      (snap.candidates.map EvidenceItem.id) snap.now
    let r := commitGate snap.store bundle kill true snap.now
    match r.rejected with
    | none => ⟨some body, none, readEvents ++ r.events, r.state⟩
    | some c =>
        ⟨none, some ("DTL-SYS-001:" ++ c.str), readEvents ++ r.events,
          r.state⟩
  else
    let ab := mkEntry snap.store.ledger.length "ABORT" "DTL-GRND-001"
      snap.now
    ⟨none, some "DTL-GRND-001", readEvents ++ [.ledgerAppend ab],
      { snap.store with ledger := snap.store.ledger ++ [ab] }⟩

/-- Modelled from the spec: one full run of the pipeline — kill-switch
snapshot enforcement first (`GLOBAL_SHUTDOWN` short-circuits before any
store access), then reuse lookup, then the fresh path. -/
def runPipeline (q : String) (snap : EvidenceSnapshot)
    (kill : KillSwitchSnapshot) : RunOutput :=
  if kill.GLOBAL_SHUTDOWN then haltOutput snap
  else
    match findReport snap.store.reports (fingerprint q) with
    | some rec =>
        match reuseLookup (fingerprint q) snap.now kill rec with
        | .trueReuse b => reuseOutput q snap b
        | .metadataOnly _ _ => freshOutput q snap kill
    | none => freshOutput q snap kill

/-- Big-step execution relation of the pipeline, one constructor per
control-flow branch; determinism is proved as functionality of this
relation. -/
inductive Exec : String → EvidenceSnapshot → KillSwitchSnapshot →
    RunOutput → Prop
  | halt {q snap kill} :
      kill.GLOBAL_SHUTDOWN = true →
      Exec q snap kill (haltOutput snap)
  | reuse {q snap kill rec b} :
      kill.GLOBAL_SHUTDOWN = false →
      findReport snap.store.reports (fingerprint q) = some rec →
      reuseLookup (fingerprint q) snap.now kill rec = .trueReuse b →
      Exec q snap kill (reuseOutput q snap b)
  | freshDenied {q snap kill rec fp ts} :
      kill.GLOBAL_SHUTDOWN = false →
      findReport snap.store.reports (fingerprint q) = some rec →
      reuseLookup (fingerprint q) snap.now kill rec = .metadataOnly fp ts →
      Exec q snap kill (freshOutput q snap kill)
  | freshMiss {q snap kill} :
      kill.GLOBAL_SHUTDOWN = false →
      findReport snap.store.reports (fingerprint q) = none →
      Exec q snap kill (freshOutput q snap kill)

/-- The executable pipeline realizes the execution relation. -/
theorem runPipeline_exec (q : String) (snap : EvidenceSnapshot)
    (kill : KillSwitchSnapshot) :
    Exec q snap kill (runPipeline q snap kill) := by
  by_cases hg : kill.GLOBAL_SHUTDOWN
  · have h : runPipeline q snap kill = haltOutput snap := by
      simp [runPipeline, hg]
    rw [h]; exact Exec.halt hg
  · cases hf : findReport snap.store.reports (fingerprint q) with
    | none =>
        have h : runPipeline q snap kill = freshOutput q snap kill := by
          simp [runPipeline, hg, hf]
        rw [h]; exact Exec.freshMiss (by simpa using hg) hf
    | some rec =>
        cases hr : reuseLookup (fingerprint q) snap.now kill rec with
        | trueReuse b =>
            have h : runPipeline q snap kill = reuseOutput q snap b := by
              simp [runPipeline, hg, hf, hr]
            rw [h]; exact Exec.reuse (by simpa using hg) hf hr
        | metadataOnly fp ts =>
            have h : runPipeline q snap kill = freshOutput q snap kill := by
              simp [runPipeline, hg, hf, hr]
            rw [h]; exact Exec.freshDenied (by simpa using hg) hf hr

/-! ## Concrete instances used by witnesses and counterexamples -/

/-- A kill-switch snapshot with every switch off. -/
def exKillOff : KillSwitchSnapshot := ⟨false, false, false, false, false, false⟩

/-- A kill-switch snapshot with `GLOBAL_SHUTDOWN` engaged. -/
def exKillOn : KillSwitchSnapshot := ⟨true, false, false, false, false, false⟩

/-- An empty store. -/
def exStore : StoreState := ⟨[], [], [], []⟩

/-- A minimal run snapshot over the empty store. -/
def exSnap : EvidenceSnapshot := ⟨exStore, [], ⟨[]⟩, "draft", 0⟩

/-- A stale evidence item (created 20 minutes before the snapshot below,
exceeding the 15-minute window), scoped to query fingerprint `q1`. -/
def ex6item : EvidenceItem :=
  ⟨"ev_1", "payload payload payload payload payload payload p!", "feed_item",
    some "q1", .active, 0⟩

/-- A stored final report for `q1`, completed 2 minutes before the
snapshot (fresh), whose body carries the provenance marker and which
cites the stale item `ev_1`. -/
def ex6rec : Report :=
  ⟨"final_report", "q1", "Done [EVID:ev_1]\n### Execution Provenance\n- Mode: Normal",
    ["ev_1"], 18⟩

/-! # Theorems -/

theorem beq_self_string (s : String) : (s == s) = true := by
  simp

theorem validate_fst (d : Draft) (lookup : String → Option EvidenceItem)
    (fp : String) (now : Nat) (selfKey : String) :
    (validate d lookup fp now selfKey).1 =
      ((validate d lookup fp now selfKey).2).isEmpty := rfl

theorem validate_snd_citation_mem (d : Draft)
    (lookup : String → Option EvidenceItem) (fp : String) (now : Nat)
    (selfKey eid : String) (v : Violation)
    (hmem : eid ∈ draftCitations d)
    (hv : v ∈ checkCitation lookup fp now selfKey eid) :
    v ∈ (validate d lookup fp now selfKey).2 := by
  unfold validate
  simp only [List.mem_append]
  right
  simp only [List.mem_flatten, List.mem_map]
  exact ⟨checkCitation lookup fp now selfKey eid, ⟨eid, hmem, rfl⟩, hv⟩

theorem validate_fails_of_violation (d : Draft)
    (lookup : String → Option EvidenceItem) (fp : String) (now : Nat)
    (selfKey eid : String) (v : Violation)
    (hmem : eid ∈ draftCitations d)
    (hv : v ∈ checkCitation lookup fp now selfKey eid) :
    (validate d lookup fp now selfKey).1 = false := by
  have h := validate_snd_citation_mem d lookup fp now selfKey eid v hmem hv
  rw [validate_fst]
  rcases hval : (validate d lookup fp now selfKey).2 with _ | ⟨a, l⟩
  · rw [hval] at h; cases h
  · rfl

/-- C3: Reuse Cache lookup evaluates exactly five hard preconditions for
True Reuse (type tag `final_report`, fingerprint match, completion time
within the freshness window, provenance trailer marker in the body, the
reuse-disabling kill switch unset); True Reuse returns the stored body
verbatim exactly when all five hold, and any failure yields a
Metadata-Only result carrying only the fingerprint and the prior
timestamp — the `metadataOnly` constructor has no body field. -/
theorem reuse_lookup_five_preconditions (fp : String) (now : Nat)
    (kill : KillSwitchSnapshot) (rec : Report) :
    (reusePreconds fp now kill rec).length = 5 ∧
    (reuseLookup fp now kill rec = .trueReuse rec.body ↔
      (reusePreconds fp now kill rec).all id = true) ∧
    ((reusePreconds fp now kill rec).all id = false →
      reuseLookup fp now kill rec = .metadataOnly fp rec.completed_at) := by
  refine ⟨rfl, ?_, ?_⟩
  · constructor
    · intro h
      by_contra hall
      have hfalse : (reusePreconds fp now kill rec).all id = false := by
        cases hcase : (reusePreconds fp now kill rec).all id
        · rfl
        · exact absurd hcase hall
      rw [reuseLookup, hfalse] at h
      simp at h
    · intro h
      rw [reuseLookup, h]
      simp
  · intro h
    rw [reuseLookup, h]
    simp

/-- Witness for C3 at a concrete failed precondition: the stored record
below is too old (completed 18 minutes before the snapshot), so lookup
falls back to Metadata-Only. -/
theorem reuse_lookup_five_preconditions_witness :
    (reusePreconds "q1" 36 exKillOff ex6rec).all id = false ∧
    reuseLookup "q1" 36 exKillOff ex6rec =
      .metadataOnly "q1" ex6rec.completed_at := by
  have hall : (reusePreconds "q1" 36 exKillOff ex6rec).all id = false := by
    decide
  exact ⟨hall,
    (reuse_lookup_five_preconditions "q1" 36 exKillOff ex6rec).2.2 hall⟩

/-- C7: scope isolation in the Grounding Validator — a citation of an
item with a non-global scope different from the draft's query
fingerprint is always rejected (any draft citing it fails validation),
and a citation passes its checks only when the cited item resolves, is
`active`, and its scope equals the draft's fingerprint or is the global
sentinel. -/
theorem grounding_scope_isolation (d : Draft)
    (lookup : String → Option EvidenceItem) (fp : String) (now : Nat)
    (selfKey eid : String) :
    (∀ it s, lookup eid = some it → it.scope = some s → s ≠ fp →
      eid ∈ draftCitations d →
      (validate d lookup fp now selfKey).1 = false) ∧
    (checkCitation lookup fp now selfKey eid = [] →
      ∃ item, lookup eid = some item ∧ item.lifecycle = .active ∧
        scopeOk item.scope fp = true) := by
  constructor
  · intro it s hlk hscope hne hmem
    by_cases hself : (eid == selfKey) = true
    · exact validate_fails_of_violation d lookup fp now selfKey eid
        (.selfReference eid) hmem (by simp [checkCitation, hself])
    · have hso : scopeOk it.scope fp = false := by
        simp [scopeOk, hscope, hne]
      refine validate_fails_of_violation d lookup fp now selfKey eid
        (.scopeMismatch eid) hmem ?_
      simp [checkCitation, hself, hlk, hso]
  · intro h
    unfold checkCitation at h
    by_cases hself : (eid == selfKey) = true
    · rw [if_pos hself] at h; cases h
    · rw [if_neg hself] at h
      cases hlk : lookup eid with
      | none => rw [hlk] at h; cases h
      | some item =>
          rw [hlk] at h
          refine ⟨item, rfl, ?_, ?_⟩
          · by_contra hlc
            have hfalse : (item.lifecycle == Lifecycle.active) = false := by
              cases hc : item.lifecycle == Lifecycle.active
              · rfl
              · exact absurd (eq_of_beq hc) hlc
            simp [hfalse] at h
          · by_contra hsc
            have hfalse : scopeOk item.scope fp = false := by
              cases hc : scopeOk item.scope fp
              · rfl
              · exact absurd hc hsc
            simp [hfalse] at h

/-- Witness for C7: a concrete citation of `ev_1` (scoped to `q1`) from
a draft fingerprinted `q2` fails validation, and the empty-violation
case resolves to an active, properly scoped item. -/
theorem grounding_scope_isolation_witness :
    (validate ⟨[⟨true, ["ev_1"]⟩]⟩
      (fun i => if i == "ev_1" then some ex6item else none)
      "q2" 5 "report:q2").1 = false := by
  refine (grounding_scope_isolation ⟨[⟨true, ["ev_1"]⟩]⟩
    (fun i => if i == "ev_1" then some ex6item else none)
    "q2" 5 "report:q2" "ev_1").1 ex6item "q1" (by decide) rfl
    (by decide) (by decide)

/-- C6 counterexample: with the single 15-minute freshness constant, at
snapshot time 20 the item `ev_1` (created at 0) has exceeded the TTL,
the stored record cites it, yet the record itself is fresh (completed
at 18), carries the provenance marker and matches every hard
precondition — so True Reuse of a record depending on stale evidence IS
granted: lookup never re-validates the record's citations. -/
theorem reuse_stale_evidence_cex :
    FRESHNESS_WINDOW_MINUTES < ageAt 20 ex6item.created_at ∧
    "ev_1" ∈ ex6rec.evidence_refs ∧
    ex6item.id = "ev_1" ∧
    reuseLookup "q1" 20 exKillOff ex6rec = .trueReuse ex6rec.body := by
  refine ⟨by decide, by decide, rfl, ?_⟩
  have hall : (reusePreconds "q1" 20 exKillOff ex6rec).all id = true := by
    decide
  rw [reuseLookup, hall]
  simp

/-- C6 (amended): the freshness window is the single named 15-minute
constant (the source contracts disagree between 15 and 30 minutes; the
stricter ACTIVE reuse contract's value is chosen); any citation of an
evidence item older than the TTL at the run-start snapshot fails
grounding validation; and the Reuse Cache denies True Reuse of any
stored record whose own completion time has exceeded the TTL — but a
still-fresh record may be True-Reused even when evidence it cites has
aged past the TTL, because lookup performs no re-validation of
individual citations. -/
theorem freshness_ttl_amended :
    FRESHNESS_WINDOW_MINUTES = 15 ∧
    (∀ (d : Draft) (lookup : String → Option EvidenceItem)
      (fp : String) (now : Nat) (selfKey eid : String) (it : EvidenceItem),
      eid ∈ draftCitations d → lookup eid = some it →
      FRESHNESS_WINDOW_MINUTES < ageAt now it.created_at →
      (validate d lookup fp now selfKey).1 = false) ∧
    (∀ (fp : String) (now : Nat) (kill : KillSwitchSnapshot) (rec : Report),
      FRESHNESS_WINDOW_MINUTES < ageAt now rec.completed_at →
      reuseLookup fp now kill rec = .metadataOnly fp rec.completed_at) := by
  refine ⟨rfl, ?_, ?_⟩
  · intro d lookup fp now selfKey eid it hmem hlk hstale
    by_cases hself : (eid == selfKey) = true
    · exact validate_fails_of_violation d lookup fp now selfKey eid
        (.selfReference eid) hmem (by simp [checkCitation, hself])
    · have hc : ¬ ageAt now it.created_at ≤ FRESHNESS_WINDOW_MINUTES :=
        Nat.not_le.mpr hstale
      refine validate_fails_of_violation d lookup fp now selfKey eid
        (.staleEvidence eid) hmem ?_
      simp [checkCitation, hself, hlk, hc]
  · intro fp now kill rec hstale
    have hc : decide (ageAt now rec.completed_at ≤ FRESHNESS_WINDOW_MINUTES)
        = false := decide_eq_false (Nat.not_le.mpr hstale)
    have hall : (reusePreconds fp now kill rec).all id = false := by
      simp [reusePreconds, hc]
    rw [reuseLookup, hall]
    simp

/-- Witness for the amended C6, at concrete inputs: a draft citing the
stale `ev_1` at snapshot time 20 fails validation, and a record
completed 18 minutes before snapshot time 36 is denied True Reuse. -/
theorem freshness_ttl_amended_witness :
    (validate ⟨[⟨true, ["ev_1"]⟩]⟩
      (fun i => if i == "ev_1" then some ex6item else none)
      "q1" 20 "report:q1").1 = false ∧
    reuseLookup "q1" 36 exKillOn ex6rec =
      .metadataOnly "q1" ex6rec.completed_at := by
  constructor
  · exact freshness_ttl_amended.2.1 ⟨[⟨true, ["ev_1"]⟩]⟩
      (fun i => if i == "ev_1" then some ex6item else none)
      "q1" 20 "report:q1" "ev_1" ex6item (by decide) rfl (by decide)
  · exact freshness_ttl_amended.2.2 "q1" 36 exKillOn ex6rec (by decide)

theorem findEvidence_append (st st' : List EvidenceItem) (id : String)
    (itm : EvidenceItem) (h : findEvidence st id = some itm) :
    findEvidence (st ++ st') id = some itm := by
  unfold findEvidence at h ⊢
  rw [List.find?_append, h]
  rfl

theorem findEvidence_cons_pos (a : EvidenceItem) (l : List EvidenceItem)
    (id : String) (h : (a.id == id) = true) :
    findEvidence (a :: l) id = some a := by
  simp [findEvidence, List.find?, h]

theorem findEvidence_cons_neg (a : EvidenceItem) (l : List EvidenceItem)
    (id : String) (h : (a.id == id) = false) :
    findEvidence (a :: l) id = findEvidence l id := by
  simp [findEvidence, List.find?, h]

theorem findEvidence_pred (st : List EvidenceItem) (id : String)
    (itm : EvidenceItem) (h : findEvidence st id = some itm) :
    (itm.id == id) = true := by
  induction st with
  | nil => cases h
  | cons a l ih =>
      by_cases ha : (a.id == id) = true
      · rw [findEvidence_cons_pos a l id ha] at h
        cases h
        exact ha
      · have ha' : (a.id == id) = false := by
          cases hc : a.id == id
          · rfl
          · exact absurd hc ha
        rw [findEvidence_cons_neg a l id ha'] at h
        exact ih h

theorem findEvidence_map (f : EvidenceItem → EvidenceItem)
    (hf : ∀ it, (f it).id = it.id) (st : List EvidenceItem) (id : String)
    (itm : EvidenceItem) (h : findEvidence st id = some itm) :
    findEvidence (st.map f) id = some (f itm) := by
  induction st with
  | nil => cases h
  | cons a l ih =>
      by_cases ha : (a.id == id) = true
      · rw [findEvidence_cons_pos a l id ha] at h
        injection h with h2
        rw [List.map_cons, ← h2]
        exact findEvidence_cons_pos (f a) (l.map f) id (by rw [hf]; exact ha)
      · have ha' : (a.id == id) = false := by
          cases hc : a.id == id
          · rfl
          · exact absurd hc ha
        rw [findEvidence_cons_neg a l id ha'] at h
        rw [List.map_cons,
          findEvidence_cons_neg (f a) (l.map f) id (by rw [hf]; exact ha')]
        exact ih h

theorem lifecycle_rank_le_two (lc : Lifecycle) : lc.rank ≤ 2 := by
  cases lc <;> simp [Lifecycle.rank]

theorem expireF_id (id : String) (now : Nat) (it : EvidenceItem) :
    (expireF id now it).id = it.id := by
  unfold expireF
  split <;> rfl

theorem revokeF_id (id : String) (it : EvidenceItem) :
    (revokeF id it).id = it.id := by
  unfold revokeF
  split <;> rfl

theorem expireF_payload_scope (id : String) (now : Nat)
    (it : EvidenceItem) :
    (expireF id now it).payload = it.payload ∧
    (expireF id now it).scope = it.scope := by
  unfold expireF
  split <;> exact ⟨rfl, rfl⟩

theorem revokeF_payload_scope (id : String) (it : EvidenceItem) :
    (revokeF id it).payload = it.payload ∧
    (revokeF id it).scope = it.scope := by
  unfold revokeF
  split <;> exact ⟨rfl, rfl⟩

theorem expireF_rank (id : String) (now : Nat) (it : EvidenceItem) :
    it.lifecycle.rank ≤ (expireF id now it).lifecycle.rank := by
  unfold expireF
  split
  next h =>
    simp only [Bool.and_eq_true] at h
    rw [eq_of_beq h.1.2]
    simp [Lifecycle.rank]
  next => exact Nat.le_refl _

theorem revokeF_rank (id : String) (it : EvidenceItem) :
    it.lifecycle.rank ≤ (revokeF id it).lifecycle.rank := by
  unfold revokeF
  split
  · exact lifecycle_rank_le_two it.lifecycle
  · exact Nat.le_refl _

theorem applyEvOp_preserves (op : EvOp) (st : List EvidenceItem)
    (id : String) (itm : EvidenceItem) (h : findEvidence st id = some itm) :
    ∃ itm', findEvidence (applyEvOp st op) id = some itm' ∧
      itm'.payload = itm.payload ∧ itm'.scope = itm.scope ∧
      itm.lifecycle.rank ≤ itm'.lifecycle.rank := by
  cases op with
  | put item =>
      refine ⟨itm, ?_, rfl, rfl, Nat.le_refl _⟩
      simp only [applyEvOp]
      by_cases hacc : putAccepts st item = true
      · rw [if_pos hacc]
        exact findEvidence_append st [item] id itm h
      · rw [if_neg hacc]
        exact h
  | expire id' now =>
      refine ⟨expireF id' now itm, ?_, (expireF_payload_scope id' now itm).1,
        (expireF_payload_scope id' now itm).2, expireF_rank id' now itm⟩
      simp only [applyEvOp]
      exact findEvidence_map _ (expireF_id id' now) st id itm h
  | revoke id' =>
      refine ⟨revokeF id' itm, ?_, (revokeF_payload_scope id' itm).1,
        (revokeF_payload_scope id' itm).2, revokeF_rank id' itm⟩
      simp only [applyEvOp]
      exact findEvidence_map _ (revokeF_id id') st id itm h

theorem applyEvOps_preserves (ops : List EvOp) :
    ∀ (st : List EvidenceItem) (id : String) (itm : EvidenceItem),
    findEvidence st id = some itm →
    ∃ itm', findEvidence (applyEvOps st ops) id = some itm' ∧
      itm'.payload = itm.payload ∧ itm'.scope = itm.scope ∧
      itm.lifecycle.rank ≤ itm'.lifecycle.rank := by
  induction ops with
  | nil => intro st id itm h; exact ⟨itm, h, rfl, rfl, Nat.le_refl _⟩
  | cons op rest ih =>
      intro st id itm h
      obtain ⟨itm₁, h₁, hp₁, hs₁, hr₁⟩ := applyEvOp_preserves op st id itm h
      obtain ⟨itm₂, h₂, hp₂, hs₂, hr₂⟩ := ih (applyEvOp st op) id itm₁ h₁
      exact ⟨itm₂, h₂, hp₂.trans hp₁, hs₂.trans hs₁, hr₁.trans hr₂⟩

/-- C9: Evidence Store invariants — for every stored item and every
sequence of store operations, the item's payload and scope never change
and its lifecycle rank never decreases (forward-only
`active → expired → revoked`); `put` leaves existing items untouched;
`expire` transitions exactly `active → expired` and only once the
item's age exceeds the TTL, leaving the item unchanged otherwise; and
`revoke` moves any state to `revoked` only when explicitly invoked. -/
theorem evidence_immutable_forward_lifecycle (st : List EvidenceItem)
    (id : String) (itm : EvidenceItem)
    (h : findEvidence st id = some itm) :
    (∀ ops, ∃ itm', findEvidence (applyEvOps st ops) id = some itm' ∧
      itm'.payload = itm.payload ∧ itm'.scope = itm.scope ∧
      itm.lifecycle.rank ≤ itm'.lifecycle.rank) ∧
    (∀ item, findEvidence (applyEvOp st (.put item)) id = some itm) ∧
    (∀ now, itm.lifecycle = .active →
      FRESHNESS_WINDOW_MINUTES < ageAt now itm.created_at →
      findEvidence (applyEvOp st (.expire id now)) id =
        some { itm with lifecycle := .expired }) ∧
    (∀ now, (itm.lifecycle ≠ .active ∨
        ageAt now itm.created_at ≤ FRESHNESS_WINDOW_MINUTES) →
      findEvidence (applyEvOp st (.expire id now)) id = some itm) ∧
    findEvidence (applyEvOp st (.revoke id)) id =
      some { itm with lifecycle := .revoked } := by
  have hpx : (itm.id == id) = true := findEvidence_pred st id itm h
  refine ⟨fun ops => applyEvOps_preserves ops st id itm h, ?_, ?_, ?_, ?_⟩
  · intro item
    simp only [applyEvOp]
    by_cases hacc : putAccepts st item = true
    · rw [if_pos hacc]; exact findEvidence_append st [item] id itm h
    · rw [if_neg hacc]; exact h
  · intro now hactive hstale
    have hmap := findEvidence_map _ (expireF_id id now) st id itm h
    simp only [applyEvOp]
    rw [hmap]
    have hcond : (itm.id == id && itm.lifecycle == Lifecycle.active
        && decide (FRESHNESS_WINDOW_MINUTES < ageAt now itm.created_at))
        = true := by
      rw [hpx, hactive]
      simp [hstale]
    congr 1
    unfold expireF
    rw [if_pos hcond]
  · intro now hcase
    have hmap := findEvidence_map _ (expireF_id id now) st id itm h
    simp only [applyEvOp]
    rw [hmap]
    congr 1
    unfold expireF
    rw [if_neg]
    intro hc
    simp only [Bool.and_eq_true] at hc
    rcases hcase with hnact | hfresh
    · exact hnact (eq_of_beq hc.1.2)
    · exact absurd (of_decide_eq_true hc.2) (Nat.not_lt.mpr hfresh)
  · have hmap := findEvidence_map _ (revokeF_id id) st id itm h
    simp only [applyEvOp]
    rw [hmap]
    congr 1
    unfold revokeF
    rw [if_pos hpx]

/-- Witness for C9: a concrete store holding `ev_1` (active, created at
time 0), expired at snapshot time 20 and then revoked. -/
theorem evidence_immutable_forward_lifecycle_witness :
    findEvidence (applyEvOp [ex6item] (.expire "ev_1" 20)) "ev_1" =
      some { ex6item with lifecycle := .expired } ∧
    findEvidence (applyEvOp [ex6item] (.revoke "ev_1")) "ev_1" =
      some { ex6item with lifecycle := .revoked } := by
  have h := evidence_immutable_forward_lifecycle [ex6item] "ev_1" ex6item
    (by decide)
  exact ⟨h.2.2.1 20 rfl (by decide), h.2.2.2.2⟩

theorem scrub_startsWith : ∀ (l pat : List Char), (∀ x ∈ pat, x ≠ '(') →
    startsWithTok pat (scrub l) = true → startsWithTok pat l = true := by
  intro l
  induction l with
  | nil =>
      intro pat hp h
      cases pat with
      | nil => rfl
      | cons p ps => exact h
  | cons c cs ih =>
      intro pat hp h
      cases pat with
      | nil => rfl
      | cons p ps =>
          have hps : ∀ x ∈ ps, x ≠ '(' :=
            fun x hx => hp x (List.mem_cons_of_mem p hx)
          have hpne : p ≠ '(' := hp p (List.mem_cons_self p ps)
          by_cases hb : startsWithTok evidTok (c :: cs) = true
          · have hs : scrub (c :: cs) = '(' :: scrub cs := by
              simp [scrub, hb]
            rw [hs, startsWithTok] at h
            simp only [Bool.and_eq_true] at h
            exact absurd (eq_of_beq h.1) hpne
          · have hs : scrub (c :: cs) = c :: scrub cs := by
              simp [scrub, hb]
            rw [hs, startsWithTok] at h
            rw [startsWithTok]
            simp only [Bool.and_eq_true] at h ⊢
            exact ⟨h.1, ih ps hps h.2⟩

theorem scrub_no_citation_token : ∀ l, containsTok evidTok (scrub l) = false := by
  intro l
  induction l with
  | nil => rfl
  | cons c cs ih =>
      by_cases hb : startsWithTok evidTok (c :: cs) = true
      · have hs : scrub (c :: cs) = '(' :: scrub cs := by
          simp [scrub, hb]
        rw [hs, containsTok, ih]
        simp [startsWithTok, evidTok]
      · have hs : scrub (c :: cs) = c :: scrub cs := by
          simp [scrub, hb]
        rw [hs, containsTok, ih]
        simp only [Bool.or_false]
        cases hc : startsWithTok evidTok (c :: scrub cs)
        · rfl
        · exfalso
          rw [show evidTok = '[' :: ['E', 'V', 'I', 'D', ':'] from rfl,
            startsWithTok] at hc
          simp only [Bool.and_eq_true] at hc
          have htail : startsWithTok ['E', 'V', 'I', 'D', ':'] cs = true :=
            scrub_startsWith cs ['E', 'V', 'I', 'D', ':'] (by decide) hc.2
          apply hb
          rw [show evidTok = '[' :: ['E', 'V', 'I', 'D', ':'] from rfl,
            startsWithTok]
          simp only [Bool.and_eq_true]
          exact ⟨hc.1, htail⟩

/-- C10: ingestion sanitization — every payload accepted at ingestion is
free of embedded citation-token openers (all `[EVID:` occurrences in
inbound external content are neutralized before storage), and any
inbound payload containing the literal provenance-trailer marker is
rejected outright, so no stored evidence payload can launder a citation
or spoof the provenance footer. -/
theorem ingestion_sanitization (payload out : List Char) :
    (sanitizeIngest payload = some out → containsTok evidTok out = false) ∧
    (containsTok provenanceMarker.data payload = true →
      sanitizeIngest payload = none) := by
  constructor
  · intro h
    unfold sanitizeIngest at h
    by_cases hp : containsTok provenanceMarker.data payload = true
    · rw [if_pos hp] at h; cases h
    · rw [if_neg hp] at h
      injection h with h2
      rw [← h2]
      exact scrub_no_citation_token payload
  · intro h
    unfold sanitizeIngest
    rw [if_pos h]

/-- Witness for C10 at concrete inbound payloads: a payload embedding a
citation token is accepted with the token neutralized, and a payload
carrying the provenance marker is rejected. -/
theorem ingestion_sanitization_witness :
    containsTok evidTok (scrub ("See [EVID:ev_9] now".data)) = false ∧
    sanitizeIngest ("x ### Execution Provenance".data) = none := by
  constructor
  · exact (ingestion_sanitization ("See [EVID:ev_9] now".data)
      (scrub ("See [EVID:ev_9] now".data))).1 (by decide)
  · exact (ingestion_sanitization ("x ### Execution Provenance".data) []).2
      (by decide)

/-- C1: determinism — any two executions of the pipeline on the same
(query, evidence snapshot, kill-switch snapshot) triple produce
byte-identical report bodies and byte-identical run-ledger entries
(in fact identical outputs; the proof shows the branch guards of the
execution relation are mutually exclusive). -/
theorem pipeline_deterministic (q : String) (snap : EvidenceSnapshot)
    (kill : KillSwitchSnapshot) (o₁ o₂ : RunOutput)
    (h₁ : Exec q snap kill o₁) (h₂ : Exec q snap kill o₂) :
    o₁.body = o₂.body ∧ o₁.state.ledger = o₂.state.ledger := by
  have heq : o₁ = o₂ := by
    cases h₁ with
    | halt hg₁ =>
        cases h₂ with
        | halt hg₂ => rfl
        | reuse hg₂ hf₂ hr₂ => cases hg₁.symm.trans hg₂
        | freshDenied hg₂ hf₂ hr₂ => cases hg₁.symm.trans hg₂
        | freshMiss hg₂ hf₂ => cases hg₁.symm.trans hg₂
    | reuse hg₁ hf₁ hr₁ =>
        cases h₂ with
        | halt hg₂ => cases hg₁.symm.trans hg₂
        | reuse hg₂ hf₂ hr₂ =>
            have hrec := Option.some.inj (hf₁.symm.trans hf₂)
            rw [← hrec] at hr₂
            have hb := hr₁.symm.trans hr₂
            injection hb with hb₂
            rw [hb₂]
        | freshDenied hg₂ hf₂ hr₂ =>
            have hrec := Option.some.inj (hf₁.symm.trans hf₂)
            rw [← hrec] at hr₂
            cases hr₁.symm.trans hr₂
        | freshMiss hg₂ hf₂ => cases hf₁.symm.trans hf₂
    | freshDenied hg₁ hf₁ hr₁ =>
        cases h₂ with
        | halt hg₂ => cases hg₁.symm.trans hg₂
        | reuse hg₂ hf₂ hr₂ =>
            have hrec := Option.some.inj (hf₁.symm.trans hf₂)
            rw [← hrec] at hr₂
            cases hr₁.symm.trans hr₂
        | freshDenied hg₂ hf₂ hr₂ => rfl
        | freshMiss hg₂ hf₂ => cases hf₁.symm.trans hf₂
    | freshMiss hg₁ hf₁ =>
        cases h₂ with
        | halt hg₂ => cases hg₁.symm.trans hg₂
        | reuse hg₂ hf₂ hr₂ => cases hf₁.symm.trans hf₂
        | freshDenied hg₂ hf₂ hr₂ => cases hf₁.symm.trans hf₂
        | freshMiss hg₂ hf₂ => rfl
  rw [heq]
  exact ⟨rfl, rfl⟩

/-- Witness for C1 at a concrete triple (empty store, switches off):
two derivations of the fresh-generation branch agree. -/
theorem pipeline_deterministic_witness :
    (freshOutput "q" exSnap exKillOff).body =
      (freshOutput "q" exSnap exKillOff).body ∧
    (freshOutput "q" exSnap exKillOff).state.ledger =
      (freshOutput "q" exSnap exKillOff).state.ledger :=
  pipeline_deterministic "q" exSnap exKillOff _ _
    (Exec.freshMiss rfl rfl) (Exec.freshMiss rfl rfl)

/-- C2: fail-closed under `GLOBAL_SHUTDOWN` — when the kill-switch
snapshot has `GLOBAL_SHUTDOWN` engaged, the run performs no store
access at all (its event trace is empty, so in particular no Evidence
Store or Report read or write), appends nothing to the run ledger, and
leaves the stores untouched: the shutdown check short-circuits before
any store access. -/
theorem global_shutdown_fail_closed (q : String) (snap : EvidenceSnapshot)
    (kill : KillSwitchSnapshot) (h : kill.GLOBAL_SHUTDOWN = true) :
    (runPipeline q snap kill).events = [] ∧
    (runPipeline q snap kill).state = snap.store ∧
    (runPipeline q snap kill).body = none := by
  simp [runPipeline, h, haltOutput]

/-- Witness for C2 at a concrete engaged snapshot. -/
theorem global_shutdown_fail_closed_witness :
    (runPipeline "q" exSnap exKillOn).events = [] ∧
    (runPipeline "q" exSnap exKillOn).state = exSnap.store := by
  have h := global_shutdown_fail_closed "q" exSnap exKillOn rfl
  exact ⟨h.1, h.2.1⟩

/-- C5: on any ordered check failing, the Commit Gate rejects with that
first violated check, performs no Evidence Store or Report write (its
trace holds no store-write event), leaves evidence, reports and the
committed-hash set unchanged, and appends exactly the prewrite entry
and an `ABORT` entry naming the violated check to the ledger. -/
theorem commit_abort_no_writes (st : StoreState) (b : CommitBundle)
    (kill : KillSwitchSnapshot) (gok : Bool) (now : Nat) (c : CheckName)
    (h : firstFailedCheck st b kill gok = some c) :
    (commitGate st b kill gok now).rejected = some c ∧
    (commitGate st b kill gok now).state.evidence = st.evidence ∧
    (commitGate st b kill gok now).state.reports = st.reports ∧
    (commitGate st b kill gok now).state.committedHashes =
      st.committedHashes ∧
    (∀ ev ∈ (commitGate st b kill gok now).events,
      isStoreWrite ev = false) ∧
    ∃ pw ab, (commitGate st b kill gok now).events =
        [.ledgerAppend pw, .ledgerAppend ab] ∧
      ab.event_type = "ABORT" ∧ ab.detail = c.str ∧
      (commitGate st b kill gok now).state.ledger = st.ledger ++ [pw, ab] := by
  simp only [commitGate, h]
  refine ⟨trivial, trivial, trivial, trivial, ?_, ?_⟩
  · intro ev hev
    rcases List.mem_cons.mp hev with h1 | h1
    · rw [h1]; rfl
    · rcases List.mem_cons.mp h1 with h2 | h2
      · rw [h2]; rfl
      · cases h2
  · exact ⟨_, _, rfl, rfl, rfl, rfl⟩

/-- Witness for C5: a bundle with an empty run id fails the schema
check; the concrete commit rejects it and leaves the store unchanged. -/
theorem commit_abort_no_writes_witness :
    (commitGate exStore ⟨"", "reporter-v0.1", "1.0.0", 0, "q1", "b", [], [], 0⟩
      exKillOff true 0).rejected = some .schema ∧
    (commitGate exStore ⟨"", "reporter-v0.1", "1.0.0", 0, "q1", "b", [], [], 0⟩
      exKillOff true 0).state.reports = exStore.reports := by
  have h := commit_abort_no_writes exStore
    ⟨"", "reporter-v0.1", "1.0.0", 0, "q1", "b", [], [], 0⟩
    exKillOff true 0 .schema (by decide)
  exact ⟨h.1, h.2.2.1⟩

theorem writesLogged_ledgerPhase (es : List RunLedgerEntry) :
    ∀ (seen : List RunLedgerEntry) (rest : List Event),
    writesLogged seen (es.map Event.ledgerAppend ++ rest) =
      writesLogged (seen ++ es) rest := by
  induction es with
  | nil => intro seen rest; simp
  | cons e t ih =>
      intro seen rest
      rw [List.map_cons, List.cons_append]
      simp only [writesLogged, List.append_eq]
      rw [ih (seen ++ [e]) rest, List.append_assoc, List.singleton_append]

theorem writesLogged_writePhase (items : List EvidenceItem)
    (seen : List RunLedgerEntry) (rest : List Event)
    (hmatch : ∀ it ∈ items,
      (seen.any fun e => entryMatches e (.evidenceWrite it)) = true)
    (hrest : writesLogged seen rest = true) :
    writesLogged seen (items.map Event.evidenceWrite ++ rest) = true := by
  induction items with
  | nil => simpa using hrest
  | cons it t ih =>
      rw [List.map_cons, List.cons_append]
      simp only [writesLogged, List.append_eq]
      have h1 := hmatch it (List.mem_cons_self it t)
      have h2 := ih fun x hx => hmatch x (List.mem_cons_of_mem it hx)
      rw [h1, h2]
      rfl

theorem evEntriesFrom_matches (items : List EvidenceItem) :
    ∀ (seq ts : Nat) (it : EvidenceItem), it ∈ items →
    ∃ e ∈ evEntriesFrom seq ts items,
      entryMatches e (.evidenceWrite it) = true := by
  induction items with
  | nil => intro seq ts it h; cases h
  | cons a t ih =>
      intro seq ts it h
      rcases List.mem_cons.mp h with h1 | h1
      · refine ⟨mkEvEntry seq a ts, List.mem_cons_self _ _, ?_⟩
        rw [h1]
        simp [entryMatches, mkEvEntry]
      · obtain ⟨e, he, hm⟩ := ih (seq + 1) ts it h1
        exact ⟨e, List.mem_cons_of_mem _ he, hm⟩

theorem finalizedBeforeWrites_ledgerPhase (es : List RunLedgerEntry)
    (rest : List Event) (h : finalizedBeforeWrites rest = true) :
    finalizedBeforeWrites (es.map Event.ledgerAppend ++ rest) = true := by
  induction es with
  | nil => simpa using h
  | cons e t ih =>
      rw [List.map_cons, List.cons_append]
      simp only [finalizedBeforeWrites, List.append_eq]
      rw [ih]
      simp

theorem commit_ledgerExtends (st : StoreState) (b : CommitBundle)
    (kill : KillSwitchSnapshot) (gok : Bool) (now : Nat) :
    ledgerExtends st.ledger (commitGate st b kill gok now).state.ledger := by
  cases hc : firstFailedCheck st b kill gok with
  | some c =>
      simp only [commitGate, hc]
      exact ⟨_, rfl⟩
  | none =>
      simp only [commitGate, hc]
      exact ⟨[mkEntry st.ledger.length "PREWRITE" ("prewrite:" ++ b.run_id) now]
          ++ evEntriesFrom (st.ledger.length + 1) now b.evidence_items
          ++ [mkEntry (st.ledger.length + 1 + b.evidence_items.length)
              "REPORT_FINALIZED" (reportKey b.fingerprint) now],
        by simp [List.append_assoc]⟩

theorem freshOutput_ledgerExtends (q : String) (snap : EvidenceSnapshot)
    (kill : KillSwitchSnapshot) :
    ledgerExtends snap.store.ledger (freshOutput q snap kill).state.ledger := by
  simp only [freshOutput]
  split
  · split
    · exact commit_ledgerExtends _ _ _ _ _
    · exact commit_ledgerExtends _ _ _ _ _
  · exact ⟨_, rfl⟩

theorem pipeline_ledgerExtends (q : String) (snap : EvidenceSnapshot)
    (kill : KillSwitchSnapshot) :
    ledgerExtends snap.store.ledger (runPipeline q snap kill).state.ledger := by
  have hx := runPipeline_exec q snap kill
  generalize ho : runPipeline q snap kill = o at hx ⊢
  cases hx with
  | halt hg => exact ⟨[], by simp [haltOutput]⟩
  | reuse hg hf hr => exact ⟨_, rfl⟩
  | freshDenied hg hf hr => exact freshOutput_ledgerExtends q snap kill
  | freshMiss hg hf => exact freshOutput_ledgerExtends q snap kill

theorem successTrace_props (pw fin : RunLedgerEntry)
    (evEntries : List RunLedgerEntry) (items : List EvidenceItem)
    (rep : Report)
    (hfin : fin.event_type = "REPORT_FINALIZED")
    (hmatch : ∀ it ∈ items, ∃ e ∈ evEntries,
      entryMatches e (.evidenceWrite it) = true)
    (hrepmatch : entryMatches fin (.reportWrite rep) = true) :
    finalizedBeforeWrites ([Event.ledgerAppend pw]
      ++ evEntries.map Event.ledgerAppend ++ [Event.ledgerAppend fin]
      ++ items.map Event.evidenceWrite ++ [Event.reportWrite rep])
      = true ∧
    writesLogged [] ([Event.ledgerAppend pw]
      ++ evEntries.map Event.ledgerAppend ++ [Event.ledgerAppend fin]
      ++ items.map Event.evidenceWrite ++ [Event.reportWrite rep])
      = true := by
  constructor
  · simp only [List.append_assoc, List.singleton_append]
    simp only [finalizedBeforeWrites, List.append_eq]
    rw [Bool.or_eq_true]
    right
    apply finalizedBeforeWrites_ledgerPhase
    simp only [finalizedBeforeWrites]
    rw [hfin]
    simp
  · simp only [List.append_assoc, List.singleton_append]
    simp only [writesLogged, List.append_eq]
    rw [writesLogged_ledgerPhase]
    simp only [writesLogged]
    apply writesLogged_writePhase
    · intro it hit
      obtain ⟨e, he, hm⟩ := hmatch it hit
      rw [List.any_eq_true]
      exact ⟨e, List.mem_append_left _ (List.mem_append_right _ he), hm⟩
    · simp only [writesLogged]
      have hany : ((([] ++ [pw]) ++ evEntries ++ [fin]).any
          fun e => entryMatches e (.reportWrite rep)) = true := by
        rw [List.any_eq_true]
        exact ⟨fin, List.mem_append_right _ (List.mem_singleton.mpr rfl),
          hrepmatch⟩
      rw [hany]
      rfl

/-- C4: ledger-before-side-effect — the commit trace of a successful
commit appends the `REPORT_FINALIZED` ledger entry before any store
write is performed, every store-write event in the trace is preceded by
a ledger entry recording it (the per-item `EVIDENCE_WRITE` entries and
`REPORT_FINALIZED` for the report), and the run ledger is append-only:
every commit outcome and every full pipeline run only ever extends the
existing ledger, never modifying or deleting entries. -/
theorem commit_ledger_before_side_effects (st : StoreState)
    (b : CommitBundle) (kill : KillSwitchSnapshot) (gok : Bool) (now : Nat) :
    (firstFailedCheck st b kill gok = none →
      finalizedBeforeWrites (commitGate st b kill gok now).events = true ∧
      writesLogged [] (commitGate st b kill gok now).events = true) ∧
    ledgerExtends st.ledger (commitGate st b kill gok now).state.ledger ∧
    (∀ (q : String) (snap : EvidenceSnapshot) (kill' : KillSwitchSnapshot),
      ledgerExtends snap.store.ledger
        (runPipeline q snap kill').state.ledger) := by
  refine ⟨?_, commit_ledgerExtends st b kill gok now,
    fun q snap kill' => pipeline_ledgerExtends q snap kill'⟩
  intro h
  simp only [commitGate, h]
  apply successTrace_props
  · rfl
  · intro it hit
    exact evEntriesFrom_matches b.evidence_items (st.ledger.length + 1)
      now it hit
  · simp [entryMatches, mkEntry, mkReport]

set_option maxRecDepth 8192 in
/-- Witness for C4: a concrete successful commit of a bundle carrying
one evidence item; its trace satisfies both ordering predicates. -/
theorem commit_ledger_before_side_effects_witness :
    finalizedBeforeWrites (commitGate exStore
      (mkBundle "q1" "q1" "body text" [ex6item] ["ev_1"] 5)
      exKillOff true 5).events = true ∧
    writesLogged [] (commitGate exStore
      (mkBundle "q1" "q1" "body text" [ex6item] ["ev_1"] 5)
      exKillOff true 5).events = true := by
  exact (commit_ledger_before_side_effects exStore
    (mkBundle "q1" "q1" "body text" [ex6item] ["ev_1"] 5)
    exKillOff true 5).1 (by decide)

theorem filter_not_filter (p : Report → Bool) (rs : List Report) :
    (rs.filter fun x => !(p x)).filter p = [] := by
  induction rs with
  | nil => rfl
  | cons a t ih =>
      by_cases ha : p a = true
      · simp [List.filter_cons, ha, ih]
      · have ha' : p a = false := by
          cases hc : p a
          · rfl
          · exact absurd hc ha
        simp [List.filter_cons, ha', ih]

theorem putReport_filter (r : Report) (rs : List Report) :
    (putReport r rs).filter
      (fun x => x.query_fingerprint == r.query_fingerprint) = [r] := by
  unfold putReport
  have hself : (r.query_fingerprint == r.query_fingerprint) = true := by simp
  simp only [List.filter_cons, hself, if_true]
  rw [filter_not_filter]

theorem putReport_find (r : Report) (rs : List Report) :
    findReport (putReport r rs) r.query_fingerprint = some r := by
  unfold findReport putReport
  apply List.find?_cons_of_pos
  simp

theorem commit_success_reports (st : StoreState) (b : CommitBundle)
    (kill : KillSwitchSnapshot) (gok : Bool) (now : Nat)
    (h : firstFailedCheck st b kill gok = none) :
    (commitGate st b kill gok now).state.reports =
      putReport (mkReport b now) st.reports := by
  simp only [commitGate, h]

/-- C8: overwrite semantics — after two successful commits under the
same query fingerprint, exactly one Report record is stored under that
fingerprint's key, and it is the record produced by the second commit
(last-write-wins, no multi-version history). -/
theorem report_overwrite_last_write_wins (st : StoreState)
    (b₁ b₂ : CommitBundle) (k₁ k₂ : KillSwitchSnapshot) (g₁ g₂ : Bool)
    (t₁ t₂ : Nat)
    (hfp : b₂.fingerprint = b₁.fingerprint)
    (_h₁ : firstFailedCheck st b₁ k₁ g₁ = none)
    (h₂ : firstFailedCheck (commitGate st b₁ k₁ g₁ t₁).state b₂ k₂ g₂
      = none) :
    ((commitGate (commitGate st b₁ k₁ g₁ t₁).state b₂ k₂ g₂ t₂).state.reports.filter
      fun r => r.query_fingerprint == b₁.fingerprint) = [mkReport b₂ t₂] ∧
    findReport
      (commitGate (commitGate st b₁ k₁ g₁ t₁).state b₂ k₂ g₂ t₂).state.reports
      b₁.fingerprint = some (mkReport b₂ t₂) := by
  have hrep := commit_success_reports (commitGate st b₁ k₁ g₁ t₁).state
    b₂ k₂ g₂ t₂ h₂
  rw [hrep, ← hfp]
  constructor
  · exact putReport_filter (mkReport b₂ t₂) _
  · exact putReport_find (mkReport b₂ t₂) _

set_option maxRecDepth 8192 in
/-- Witness for C8: two concrete successful commits under fingerprint
`q1` with different bodies; exactly the second record remains. -/
theorem report_overwrite_last_write_wins_witness :
    findReport (commitGate
      (commitGate exStore (mkBundle "q1" "q1" "body one" [] [] 0)
        exKillOff true 0).state
      (mkBundle "q1" "q1" "body two" [] [] 1) exKillOff true 1).state.reports
      "q1" = some (mkReport (mkBundle "q1" "q1" "body two" [] [] 1) 1) := by
  exact (report_overwrite_last_write_wins exStore
    (mkBundle "q1" "q1" "body one" [] [] 0)
    (mkBundle "q1" "q1" "body two" [] [] 1)
    exKillOff exKillOff true true 0 1 rfl (by decide) (by decide)).2

end DTL
